import Mathlib

/-!
A shallow embedding of the getdocs annotation parser
(`src/getdocs/parser.ts`) of the getdocs2ts repository, together with
theorems checking the specification's claims about it.

The parser source is embedded function-by-function below.  The scanner
module (`src/getdocs/scanner.ts`) and the `invariant` helper are not part
of the available sources — only the parser that imports them is — so they
are modelled from the specification (§4.1 Scanner): token kinds, literal
values, whitespace skipping, the dedicated end-of-input token, the lexical
error on an unrecognized character, and the rollback lookahead primitive.
In this pure embedding, scanner state is an explicit value, so the
rollback of `lookAhead` is by construction: the predicate is evaluated on
the current state value without threading its advancement back.

Fallible code (`throw new Error(...)` in the source) is embedded with
`Except String`; the recursive-descent functions take a fuel argument for
termination, and the entry point `parse` supplies fuel that is more than
sufficient for its input (each recursive call consumes fuel, and general
theorems quantify over the fuel).
-/

/-- Modelled from the spec: the token kinds of the missing scanner module
(`src/getdocs/scanner.ts`, §4.1): identifier, string literal, number
literal, fixed punctuation and keyword tokens, and a dedicated
end-of-input token.  The source's `SyntaxKind` is a numeric enum; the
numeric values are unknown, so messages below render kinds by name. -/
inductive SyntaxKind : Type where
  | identifier
  | stringLiteral
  | numberLiteral
  | questionToken
  | dotToken
  | commaToken
  | colonToken
  | openParenToken
  | closeParenToken
  | openBracketToken
  | closeBracketToken
  | openBraceToken
  | closeBraceToken
  | lessThanToken
  | greaterThanToken
  | dotDotDotToken
  | rightArrowToken
  | asteriskToken
  | anyKeyword
  | unionKeyword
  | endOfFileToken
  deriving Repr, DecidableEq

/-- Rendering of a token kind for error messages (stands in for the
numeric enum value interpolated by the source's template strings). -/
def SyntaxKind.kindName : SyntaxKind → String
  | .identifier => "Identifier"
  | .stringLiteral => "StringLiteral"
  | .numberLiteral => "NumberLiteral"
  | .questionToken => "QuestionToken"
  | .dotToken => "DotToken"
  | .commaToken => "CommaToken"
  | .colonToken => "ColonToken"
  | .openParenToken => "OpenParenToken"
  | .closeParenToken => "CloseParenToken"
  | .openBracketToken => "OpenBracketToken"
  | .closeBracketToken => "CloseBracketToken"
  | .openBraceToken => "OpenBraceToken"
  | .closeBraceToken => "CloseBraceToken"
  | .lessThanToken => "LessThanToken"
  | .greaterThanToken => "GreaterThanToken"
  | .dotDotDotToken => "DotDotDotToken"
  | .rightArrowToken => "RightArrowToken"
  | .asteriskToken => "AsteriskToken"
  | .anyKeyword => "AnyKeyword"
  | .unionKeyword => "UnionKeyword"
  | .endOfFileToken => "EndOfFileToken"

/-- Modelled from the spec: whitespace skipped by the scanner. -/
def isWhitespaceChar (c : Char) : Bool :=
  c = ' ' || c = '\t' || c = '\n' || c = '\r'

/-- Modelled from the spec: a character that may start an identifier. -/
def isIdentStart (c : Char) : Bool :=
  c.isAlpha || c = '_'

/-- Modelled from the spec: a character that may continue an identifier. -/
def isIdentPart (c : Char) : Bool :=
  c.isAlpha || c.isDigit || c = '_'

/-- Modelled from the spec: the body of a string literal, read up to the
closing quote delimiter, unescaping a backslash-escaped character
(§4.1: string decoding must unescape at least the literal's own quote
delimiter).  Running out of input is a lexical error. -/
def scanStringBody : List Char → Except String (List Char × List Char)
  | [] => .error "Unterminated string literal"
  | c :: rest =>
    if c = '"' then .ok ([], rest)
    else if c = '\\' then
      match rest with
      | [] => .error "Unterminated string literal"
      | e :: rest2 => do
        let (body, r) ← scanStringBody rest2
        .ok (e :: body, r)
    else do
      let (body, r) ← scanStringBody rest
      .ok (c :: body, r)

/-- Modelled from the spec: the missing scanner's `scan()` (§4.1).  Skips
whitespace, classifies the next lexeme, and returns its kind, its literal
value (for identifiers, strings and numbers; empty otherwise), and the
remaining characters.  End of input yields the dedicated end token; an
unrecognized character raises a lexical error naming the character. -/
def scanChars : List Char → Except String (SyntaxKind × String × List Char)
  | [] => .ok (.endOfFileToken, "", [])
  | c :: rest =>
    if isWhitespaceChar c then scanChars rest
    else if c = '.' then
      match rest with
      | '.' :: '.' :: rest2 => .ok (.dotDotDotToken, "", rest2)
      | _ => .ok (.dotToken, "", rest)
    else if c = '"' then
      match scanStringBody rest with
      | .error e => .error e
      | .ok (body, r) => .ok (.stringLiteral, String.mk body, r)
    else if c.isDigit then
      let ds := rest.takeWhile Char.isDigit
      .ok (.numberLiteral, String.mk (c :: ds), rest.drop ds.length)
    else if isIdentStart c then
      let ds := rest.takeWhile isIdentPart
      let text := String.mk (c :: ds)
      let rest2 := rest.drop ds.length
      if text = "any" then .ok (.anyKeyword, text, rest2)
      else if text = "union" then .ok (.unionKeyword, text, rest2)
      else .ok (.identifier, text, rest2)
    else if c = '?' then .ok (.questionToken, "", rest)
    else if c = ',' then .ok (.commaToken, "", rest)
    else if c = ':' then .ok (.colonToken, "", rest)
    else if c = '(' then .ok (.openParenToken, "", rest)
    else if c = ')' then .ok (.closeParenToken, "", rest)
    else if c = '[' then .ok (.openBracketToken, "", rest)
    else if c = ']' then .ok (.closeBracketToken, "", rest)
    else if c = '{' then .ok (.openBraceToken, "", rest)
    else if c = '}' then .ok (.closeBraceToken, "", rest)
    else if c = '<' then .ok (.lessThanToken, "", rest)
    else if c = '>' then .ok (.greaterThanToken, "", rest)
    else if c = '→' then .ok (.rightArrowToken, "", rest)
    else if c = '*' then .ok (.asteriskToken, "", rest)
    else .error ("Unrecognized character " ++ String.mk [c])

mutual
/-- The parser's type tree (the `TypeNode` tagged union of the source).
The source's optional `returnType` field is embedded as an `Option`:
`none` is the absent field. -/
inductive TypeNode : Type where
  | any : TypeNode
  | entity (name : String) : TypeNode
  | nullable (type : TypeNode) : TypeNode
  | union (types : List TypeNode) : TypeNode
  | function (parameters : List FunctionParameterTypeNode)
      (returnType? : Option TypeNode) : TypeNode
  | array (type : TypeNode) : TypeNode
  | object (members : List ObjectMemberTypeNode) : TypeNode
  | stringLiteral (value : String) : TypeNode
  | numberLiteral (value : String) : TypeNode

/-- `FunctionParameterTypeNode` of the source: the optional `name` field
is an `Option`; the optional `rest` field (absent or `true` in the
source) is a `Bool`, with `false` standing for the absent field. -/
inductive FunctionParameterTypeNode : Type where
  | mk (name? : Option String) (rest : Bool) (type : TypeNode) :
      FunctionParameterTypeNode

/-- `ObjectMemberTypeNode` of the source. -/
inductive ObjectMemberTypeNode : Type where
  | mk (name : String) (type : TypeNode) : ObjectMemberTypeNode
end

/-- The parameter name of a function parameter node. -/
def FunctionParameterTypeNode.name? : FunctionParameterTypeNode → Option String
  | .mk n _ _ => n

/-- The rest flag of a function parameter node. -/
def FunctionParameterTypeNode.rest : FunctionParameterTypeNode → Bool
  | .mk _ r _ => r

/-- The type of a function parameter node. -/
def FunctionParameterTypeNode.type : FunctionParameterTypeNode → TypeNode
  | .mk _ _ t => t

/-- The three parsing contexts of the source's `ParsingContext` enum. -/
inductive ParsingContext : Type where
  | parameters
  | typeParameters
  | literalTypeMembers
  deriving Repr, DecidableEq

/-- The element node type that each parsing context's element callback
produces in the source (`parseFunctionParameter`, `parseType`,
`parseTypeLiteralMember` respectively); used to give the shared
delimited-list loop its result type. -/
def ParsingContext.Elem : ParsingContext → Type
  | .parameters => FunctionParameterTypeNode
  | .typeParameters => TypeNode
  | .literalTypeMembers => ObjectMemberTypeNode

/-- The parser's state: the current token's kind, the current token's
literal value (the scanner's `getTokenValue()`), and the characters not
yet scanned. -/
structure PState : Type where
  tok : SyntaxKind
  tokenValue : String
  rest : List Char
  deriving Repr, DecidableEq

/-- `nextToken` of the source: scan the next token into the state. -/
def nextToken (st : PState) : Except String PState := do
  let (k, v, r) ← scanChars st.rest
  .ok ⟨k, v, r⟩

/-- `skipExpected` of the source: require the current token's kind,
consuming it, and otherwise raise the expected-versus-actual syntax
error. -/
def skipExpected (kind : SyntaxKind) (st : PState) : Except String PState :=
  if st.tok = kind then nextToken st
  else .error ("Expected to parse " ++ kind.kindName ++ " but found " ++ st.tok.kindName)

/-- `skipOptional` of the source: consume the current token if it has the
given kind, reporting whether it did. -/
def skipOptional (kind : SyntaxKind) (st : PState) : Except String (Bool × PState) :=
  if st.tok = kind then do
    let st' ← nextToken st
    .ok (true, st')
  else .ok (false, st)

/-- `isListTerminator` of the source: the context-specific terminator
predicate for delimited lists. -/
def isListTerminator (context : ParsingContext) (tok : SyntaxKind) : Bool :=
  match context with
  | .typeParameters => tok = .greaterThanToken
  | .parameters => tok = .closeParenToken
  | .literalTypeMembers => tok = .closeBraceToken

/-- `parseIdentifier` of the source: `invariant(token === Identifier)`,
then return the token's value and advance.  The `invariant` helper is not
among the available sources; modelled from the spec as raising an error. -/
def parseIdentifier (st : PState) : Except String (String × PState) :=
  if st.tok = .identifier then do
    let st' ← nextToken st
    .ok (st.tokenValue, st')
  else .error "Invariant failed"

/-- `isNamedFunctionParameterStart` of the source, evaluated under the
scanner's rollback `lookAhead` (modelled from the spec §4.1): the current
token is an identifier and the token immediately following it is a colon.
The state value is not threaded onward, so the scanner position is
restored unconditionally, exactly as the lookahead primitive promises. -/
def isNamedFunctionParameterStart (st : PState) : Except String Bool :=
  if st.tok = .identifier then do
    let (k, _, _) ← scanChars st.rest
    .ok (k = .colonToken)
  else .ok false

/-- `parseAny` of the source. -/
def parseAny (st : PState) : Except String (TypeNode × PState) := do
  let st' ← nextToken st
  .ok (.any, st')

/-- `parseNumberLiteral` of the source. -/
def parseNumberLiteral (st : PState) : Except String (TypeNode × PState) := do
  let st' ← nextToken st
  .ok (.numberLiteral st.tokenValue, st')

/-- `parseStringLiteral` of the source. -/
def parseStringLiteral (st : PState) : Except String (TypeNode × PState) := do
  let st' ← nextToken st
  .ok (.stringLiteral st.tokenValue, st')

/-- The dotted-name loop of the source's `parseEntity`:
`while (skipOptional(DotToken)) name += '.' + parseIdentifier()`. -/
def parseEntityLoop : Nat → String → PState → Except String (String × PState)
  | 0, _, _ => .error "out of fuel"
  | fuel + 1, name, st => do
    let (dot, st1) ← skipOptional .dotToken st
    if dot then
      let (id, st2) ← parseIdentifier st1
      parseEntityLoop fuel (name ++ "." ++ id) st2
    else .ok (name, st1)

/-- `parseEntity` of the source: one or more dot-separated identifiers
collected into a single name string. -/
def parseEntity (fuel : Nat) (st : PState) : Except String (TypeNode × PState) := do
  let (name, st1) ← parseIdentifier st
  let (name, st2) ← parseEntityLoop fuel name st1
  .ok (.entity name, st2)

mutual
/-- `parseType` of the source: dispatch on the current token's kind; any
other token raises the unable-to-parse syntax error. -/
def parseType : Nat → PState → Except String (TypeNode × PState)
  | 0, _ => .error "out of fuel"
  | fuel + 1, st =>
    match st.tok with
    | .asteriskToken => parseAny st
    | .anyKeyword => parseAny st
    | .openBracketToken => parseArray fuel st
    | .openParenToken => parseFunction fuel st
    | .questionToken => parseNullable fuel st
    | .identifier => parseEntity fuel st
    | .unionKeyword => parseUnion fuel st
    | .openBraceToken => parseObject fuel st
    | .stringLiteral => parseStringLiteral st
    | .numberLiteral => parseNumberLiteral st
    | _ => .error ("Unable to parse token " ++ st.tok.kindName)

/-- `parseNullable` of the source: consume `?`, then wrap the type parsed
directly after it. -/
def parseNullable : Nat → PState → Except String (TypeNode × PState)
  | 0, _ => .error "out of fuel"
  | fuel + 1, st => do
    let st1 ← nextToken st
    let (t, st2) ← parseType fuel st1
    .ok (.nullable t, st2)

/-- `parseUnion` of the source: `invariant(token === UnionKeyword)`, then
a `<` `>` bracketed list of types. -/
def parseUnion : Nat → PState → Except String (TypeNode × PState)
  | 0, _ => .error "out of fuel"
  | fuel + 1, st =>
    if st.tok = .unionKeyword then do
      let st1 ← nextToken st
      let (types, st2) ← parseBracketedList .typeParameters .lessThanToken .greaterThanToken fuel st1
      .ok (.union types, st2)
    else .error "Invariant failed"

/-- `parseObject` of the source: `invariant(token === OpenBraceToken)`,
then a braced list of type-literal members. -/
def parseObject : Nat → PState → Except String (TypeNode × PState)
  | 0, _ => .error "out of fuel"
  | fuel + 1, st =>
    if st.tok = .openBraceToken then do
      let (members, st1) ← parseBracketedList .literalTypeMembers .openBraceToken .closeBraceToken fuel st
      .ok (.object members, st1)
    else .error "Invariant failed"

/-- `parseTypeLiteralMember` of the source: identifier, `:`, type. -/
def parseTypeLiteralMember : Nat → PState → Except String (ObjectMemberTypeNode × PState)
  | 0, _ => .error "out of fuel"
  | fuel + 1, st => do
    let (name, st1) ← parseIdentifier st
    let st2 ← skipExpected .colonToken st1
    let (type, st3) ← parseType fuel st2
    .ok (.mk name type, st3)

/-- `parseArray` of the source: `[`, type, `]`. -/
def parseArray : Nat → PState → Except String (TypeNode × PState)
  | 0, _ => .error "out of fuel"
  | fuel + 1, st => do
    let st1 ← skipExpected .openBracketToken st
    let (t, st2) ← parseType fuel st1
    let st3 ← skipExpected .closeBracketToken st2
    .ok (.array t, st3)

/-- `parseFunction` of the source: a parenthesised list of parameters,
then, when `skipOptional` finds the arrow token, a return type; otherwise
the function node carries no return type (`none`). -/
def parseFunction : Nat → PState → Except String (TypeNode × PState)
  | 0, _ => .error "out of fuel"
  | fuel + 1, st => do
    let (parameters, st1) ← parseBracketedList .parameters .openParenToken .closeParenToken fuel st
    let (arrow, st2) ← skipOptional .rightArrowToken st1
    if arrow then
      let (ret, st3) ← parseType fuel st2
      .ok (.function parameters (some ret), st3)
    else
      .ok (.function parameters none, st2)

/-- `parseFunctionParameter` of the source: the rest-marker branch, the
rollback-lookahead named branch, and the unnamed fallthrough. -/
def parseFunctionParameter : Nat → PState → Except String (FunctionParameterTypeNode × PState)
  | 0, _ => .error "out of fuel"
  | fuel + 1, st =>
    if st.tok = .dotDotDotToken then do
      let st1 ← nextToken st
      let (name, st2) ← parseIdentifier st1
      let st3 ← skipExpected .colonToken st2
      let (type, st4) ← parseType fuel st3
      .ok (.mk (some name) true type, st4)
    else do
      let named ← isNamedFunctionParameterStart st
      if named then
        let (name, st1) ← parseIdentifier st
        let st2 ← skipExpected .colonToken st1
        let (type, st3) ← parseType fuel st2
        .ok (.mk (some name) false type, st3)
      else
        let (type, st1) ← parseType fuel st
        .ok (.mk none false type, st1)

/-- The element callback handed to the source's `parseBracketedList` at
its three call sites, dispatched by context (`parseFunctionParameter`,
`parseType`, `parseTypeLiteralMember`). -/
def parseElement : (context : ParsingContext) → Nat → PState →
    Except String (context.Elem × PState)
  | _, 0, _ => .error "out of fuel"
  | .parameters, fuel + 1, st => parseFunctionParameter fuel st
  | .typeParameters, fuel + 1, st => parseType fuel st
  | .literalTypeMembers, fuel + 1, st => parseTypeLiteralMember fuel st

/-- `parseBracketedList` of the source: open token, delimited list, close
token. -/
def parseBracketedList (context : ParsingContext)
    (openK closeK : SyntaxKind) : Nat → PState →
    Except String (List context.Elem × PState)
  | 0, _ => .error "out of fuel"
  | fuel + 1, st => do
    let st1 ← skipExpected openK st
    let (result, st2) ← parseDelimitedList context fuel st1
    let st3 ← skipExpected closeK st2
    .ok (result, st3)

/-- `parseDelimitedList` of the source: loop until the context's
terminator is the current token, parsing an element and then consuming at
most one optional comma per iteration. -/
def parseDelimitedList (context : ParsingContext) : Nat → PState →
    Except String (List context.Elem × PState)
  | 0, _ => .error "out of fuel"
  | fuel + 1, st =>
    if isListTerminator context st.tok then .ok ([], st)
    else do
      let (e, st1) ← parseElement context fuel st
      let (_, st2) ← skipOptional .commaToken st1
      let (result, st3) ← parseDelimitedList context fuel st2
      .ok (e :: result, st3)
end

/-- The fuel the entry point supplies: ample for its input, since every
recursive step of the parser consumes fuel at most a constant number of
times per input character. -/
def parseFuel (text : String) : Nat :=
  8 * text.length + 32

/-- `parse` of the source: initialize the scanner on the text, scan the
first token, and return the result of one `parseType` derivation (the
final state, and with it any unconsumed input, is discarded). -/
def parse (text : String) : Except String TypeNode := do
  let (k, v, r) ← scanChars text.toList
  let (t, _) ← parseType (parseFuel text) ⟨k, v, r⟩
  .ok t

set_option maxRecDepth 16384
set_option maxHeartbeats 1600000

/-! Helper lemmas shared by the claim theorems below. -/

/-- Inversion of an `Except` bind producing a success. -/
theorem except_bind_ok {α β : Type} {x : Except String α} {g : α → Except String β} {b : β} :
    x >>= g = .ok b ↔ ∃ a, x = .ok a ∧ g a = .ok b := by
  cases x with
  | error e => simp [Bind.bind, Except.bind]
  | ok a => simp [Bind.bind, Except.bind]

/-- A successful `skipOptional` that consumed the token saw exactly that
token kind and advanced past it. -/
theorem skipOptional_ok_true {k : SyntaxKind} {st st' : PState}
    (h : skipOptional k st = .ok (true, st')) :
    st.tok = k ∧ nextToken st = .ok st' := by
  unfold skipOptional at h
  split at h
  · rw [except_bind_ok] at h
    obtain ⟨a, ha, h2⟩ := h
    simp at h2
    exact ⟨by assumption, h2 ▸ ha⟩
  · simp at h

/-- A successful `skipOptional` that did not consume saw a different
token kind and left the state unchanged. -/
theorem skipOptional_ok_false {k : SyntaxKind} {st st' : PState}
    (h : skipOptional k st = .ok (false, st')) : st.tok ≠ k ∧ st' = st := by
  unfold skipOptional at h
  split at h
  · rw [except_bind_ok] at h
    obtain ⟨a, _, h2⟩ := h
    simp at h2
  · simp at h
    exact ⟨by assumption, h.symm⟩

/-- Claim C1: function-parameter naming is decided by a rollback lookahead
that never consumes tokens on failure.  `parse "(a) → b"` yields a single
unnamed parameter of type Entity `a`; `parse "(a: b) → c"` yields a
parameter named `a` of type Entity `b`; and `parse "(a.b) → c"` yields a
single unnamed parameter of type Entity `a.b` — the failed lookahead left
parsing at the original identifier token, so the dotted entity name parsed
intact. -/
theorem parse_parameterName_lookahead :
    parse "(a) → b"
      = .ok (.function [.mk none false (.entity "a")] (some (.entity "b"))) ∧
    parse "(a: b) → c"
      = .ok (.function [.mk (some "a") false (.entity "b")] (some (.entity "c"))) ∧
    parse "(a.b) → c"
      = .ok (.function [.mk none false (.entity "a.b")] (some (.entity "c"))) :=
  ⟨rfl, rfl, rfl⟩

/-- Claim C3, counterexample: an input placing two list elements
adjacently with no separating comma does not raise a syntax error — the
delimited-list loop only ever consumes commas optionally — so
`parse "union<a b>"` produces a two-element union tree. -/
theorem parse_adjacentElements_accepted :
    parse "union<a b>" = .ok (.union [.entity "a", .entity "b"]) :=
  rfl

/-- Claim C3, amended: commas between successive elements of a union type
list, a function parameter list, or an object member list are consumed
when present but are never required; an input placing two list elements
adjacently with no separating comma is accepted and yields the same tree
as the comma-separated form. -/
theorem parse_listCommas_optional :
    parse "union<a b>" = parse "union<a, b>" ∧
    parse "(a b)" = parse "(a, b)" ∧
    parse "{a: b c: d}" = parse "{a: b, c: d}" ∧
    parse "union<a, b>" = .ok (.union [.entity "a", .entity "b"]) := by
  refine ⟨?_, ?_, ?_, by rfl⟩
  · exact (show parse "union<a b>" = .ok (.union [.entity "a", .entity "b"]) from rfl).trans
      (show parse "union<a, b>" = .ok (.union [.entity "a", .entity "b"]) from rfl).symm
  · exact (show parse "(a b)"
        = .ok (.function [.mk none false (.entity "a"), .mk none false (.entity "b")] none)
        from rfl).trans
      (show parse "(a, b)"
        = .ok (.function [.mk none false (.entity "a"), .mk none false (.entity "b")] none)
        from rfl).symm
  · exact (show parse "{a: b c: d}"
        = .ok (.object [.mk "a" (.entity "b"), .mk "c" (.entity "d")]) from rfl).trans
      (show parse "{a: b, c: d}"
        = .ok (.object [.mk "a" (.entity "b"), .mk "c" (.entity "d")]) from rfl).symm

/-- Claim C4: in each of the three list contexts a trailing comma after an
element is consumed if present but never required, and the list ends
exactly when the context's terminator is the current token: the trees for
`union<a,>` and `union<a>` are structurally equal, likewise for parameter
and object member lists; a second trailing comma is a syntax error; and a
delimited list yields no elements exactly when the current token is the
context-specific terminator. -/
theorem parse_trailingComma_tolerated :
    parse "union<a,>" = parse "union<a>" ∧
    parse "(a,)" = parse "(a)" ∧
    parse "{a: b,}" = parse "{a: b}" ∧
    parse "union<a>" = .ok (.union [.entity "a"]) ∧
    parse "union<a,,>" = .error "Unable to parse token CommaToken" ∧
    ∀ (context : ParsingContext) (fuel : Nat) (st : PState),
      parseDelimitedList context (fuel + 1) st = .ok ([], st) ↔
        isListTerminator context st.tok = true := by
  refine ⟨?_, ?_, ?_, by rfl, by rfl, ?_⟩
  · exact (show parse "union<a,>" = .ok (.union [.entity "a"]) from rfl).trans
      (show parse "union<a>" = .ok (.union [.entity "a"]) from rfl).symm
  · exact (show parse "(a,)" = .ok (.function [.mk none false (.entity "a")] none) from rfl).trans
      (show parse "(a)" = .ok (.function [.mk none false (.entity "a")] none) from rfl).symm
  · exact (show parse "{a: b,}" = .ok (.object [.mk "a" (.entity "b")]) from rfl).trans
      (show parse "{a: b}" = .ok (.object [.mk "a" (.entity "b")]) from rfl).symm
  · intro context fuel st
    constructor
    · intro h
      by_contra hterm
      unfold parseDelimitedList at h
      rw [if_neg hterm] at h
      rw [except_bind_ok] at h
      obtain ⟨⟨e, st1⟩, h1, h⟩ := h
      dsimp only at h
      rw [except_bind_ok] at h
      obtain ⟨⟨b, st2⟩, h2, h⟩ := h
      dsimp only at h
      rw [except_bind_ok] at h
      obtain ⟨⟨res, st3⟩, h3, h⟩ := h
      simp at h
    · intro h
      unfold parseDelimitedList
      rw [if_pos h]

/-- Claim C4, witness: the empty-list form of the delimited-list theorem
applied at a concrete terminator state. -/
theorem parse_trailingComma_tolerated_witness :
    parseDelimitedList .typeParameters 5 ⟨.greaterThanToken, "", []⟩
      = .ok ([], ⟨.greaterThanToken, "", []⟩) :=
  (parse_trailingComma_tolerated.2.2.2.2.2 .typeParameters 4
    ⟨.greaterThanToken, "", []⟩).mpr (by decide)

/-- Claim C9: the empty-collection cases: `parse "()"` yields a function
node with an empty parameter list and no return type; `parse "{}"` yields
an object node with no members; and the empty string literal decodes to
the empty value. -/
theorem parse_emptyCollections :
    parse "()" = .ok (.function [] none) ∧
    parse "{}" = .ok (.object []) ∧
    parse "\"\"" = .ok (.stringLiteral "") :=
  ⟨rfl, rfl, rfl⟩

/-- Claim C8, counterexample: the unterminated union `union<a` does raise,
but the raised syntax error is the type-dispatch error naming only the
actual token — it does not report an expected token kind (in particular it
is not the expected-versus-actual message of the terminator check). -/
theorem parse_unterminatedUnion_dispatchError :
    parse "union<a" = .error "Unable to parse token EndOfFileToken" ∧
    "Unable to parse token EndOfFileToken"
      ≠ "Expected to parse " ++ SyntaxKind.kindName .greaterThanToken
          ++ " but found " ++ SyntaxKind.kindName .endOfFileToken :=
  ⟨rfl, by decide⟩

/-- Claim C8, amended: for malformed input — an unterminated union, a
function parameter list missing its closing parenthesis, or a stray
unrecognized character — parse raises an error and raises before
returning any node (never a partial tree).  Errors raised at a
required-token check report the expected versus the actual token kind;
errors at a grammar dispatch point report only the unexpected token, and
lexical errors report the offending character. -/
theorem parse_malformed_raises :
    parse "union<a" = .error "Unable to parse token EndOfFileToken" ∧
    parse "(a" = .error "Unable to parse token EndOfFileToken" ∧
    parse "#" = .error "Unrecognized character #" ∧
    parse "{a b}" = .error "Expected to parse ColonToken but found Identifier" ∧
    parse "[a" = .error "Expected to parse CloseBracketToken but found EndOfFileToken" :=
  ⟨rfl, rfl, rfl, rfl, rfl⟩

/-- Claim C2: a parsed function annotation's node has a return type
exactly when the arrow token followed the closing parenthesis of the
parameter list; with no arrow the node's return-type field is absent
(`none`), not a null placeholder. -/
theorem parseFunction_returnType_iff_arrow (fuel : Nat) (st : PState)
    (f : TypeNode) (st' : PState)
    (h : parseFunction (fuel + 1) st = .ok (f, st')) :
    ∃ (parameters : List FunctionParameterTypeNode) (st1 : PState) (ret : Option TypeNode),
      parseBracketedList .parameters .openParenToken .closeParenToken fuel st
        = .ok (parameters, st1) ∧
      f = .function parameters ret ∧
      (ret.isSome = true ↔ st1.tok = .rightArrowToken) := by
  unfold parseFunction at h
  rw [except_bind_ok] at h
  obtain ⟨⟨parameters, st1⟩, h1, h⟩ := h
  dsimp only at h
  rw [except_bind_ok] at h
  obtain ⟨⟨arrow, st2⟩, h2, h⟩ := h
  dsimp only at h
  cases arrow with
  | false =>
    simp at h
    obtain ⟨hf, -⟩ := h
    exact ⟨parameters, st1, none, h1, hf.symm, by
      simp [(skipOptional_ok_false h2).1]⟩
  | true =>
    rw [if_pos rfl] at h
    rw [except_bind_ok] at h
    obtain ⟨⟨ret, st3⟩, h3, h⟩ := h
    dsimp only at h
    simp at h
    obtain ⟨hf, hst⟩ := h
    exact ⟨parameters, st1, some ret, h1, hf.symm, by
      simp [(skipOptional_ok_true h2).1]⟩

/-- Claim C2, witness: the return-type theorem applied to the state
reached after scanning the first token of `"() → a"`. -/
theorem parseFunction_returnType_iff_arrow_witness :
    ∃ (parameters : List FunctionParameterTypeNode) (st1 : PState) (ret : Option TypeNode),
      parseBracketedList .parameters .openParenToken .closeParenToken 40
          ⟨.openParenToken, "", ") → a".toList⟩
        = .ok (parameters, st1) ∧
      TypeNode.function [] (some (.entity "a")) = .function parameters ret ∧
      (ret.isSome = true ↔ st1.tok = .rightArrowToken) :=
  parseFunction_returnType_iff_arrow 40 ⟨.openParenToken, "", ") → a".toList⟩
    (.function [] (some (.entity "a"))) ⟨.endOfFileToken, "", []⟩ (by rfl)

/-- Claim C5: the nullable marker applies to exactly the immediately
following type — `parse "?union<a>"` wraps the whole union, and in
general a successful `parseNullable` returns a `nullable` node wrapping
exactly the one type parsed directly after consuming the `?` token. -/
theorem parse_nullable_wrapsImmediate :
    parse "?union<a>" = .ok (.nullable (.union [.entity "a"])) ∧
    ∀ (fuel : Nat) (st : PState) (n : TypeNode) (st' : PState),
      parseNullable (fuel + 1) st = .ok (n, st') →
      ∃ (st1 : PState) (t : TypeNode),
        nextToken st = .ok st1 ∧ parseType fuel st1 = .ok (t, st') ∧ n = .nullable t := by
  refine ⟨by rfl, ?_⟩
  intro fuel st n st' h
  unfold parseNullable at h
  rw [except_bind_ok] at h
  obtain ⟨st1, h1, h⟩ := h
  rw [except_bind_ok] at h
  obtain ⟨⟨t, st2⟩, h2, h⟩ := h
  dsimp only at h
  simp at h
  obtain ⟨hn, hst⟩ := h
  exact ⟨st1, t, h1, hst ▸ h2, hn.symm⟩

/-- Claim C5, witness: the nullable theorem applied to the state reached
after scanning the `?` of `"?union<a>"`. -/
theorem parse_nullable_wrapsImmediate_witness :
    ∃ (st1 : PState) (t : TypeNode),
      nextToken ⟨.questionToken, "", "union<a>".toList⟩ = .ok st1 ∧
      parseType 80 st1 = .ok (t, ⟨.endOfFileToken, "", []⟩) ∧
      TypeNode.nullable (.union [.entity "a"]) = .nullable t :=
  parse_nullable_wrapsImmediate.2 80 ⟨.questionToken, "", "union<a>".toList⟩
    (.nullable (.union [.entity "a"])) ⟨.endOfFileToken, "", []⟩ (by rfl)

/-- Claim C7: a function parameter beginning with the variadic rest
marker yields a parameter node with the rest flag set and a present name;
after the marker an identifier is required and then a colon is required,
and the failure of either requirement raises an error. -/
theorem parseFunctionParameter_rest_requirements :
    (∀ (fuel : Nat) (st : PState) (p : FunctionParameterTypeNode) (st' : PState),
        st.tok = .dotDotDotToken →
        parseFunctionParameter (fuel + 1) st = .ok (p, st') →
        p.rest = true ∧ p.name?.isSome = true) ∧
    parse "(...a b)" = .error "Expected to parse ColonToken but found Identifier" ∧
    parse "(... : b)" = .error "Invariant failed" := by
  refine ⟨?_, by rfl, by rfl⟩
  intro fuel st p st' htok h
  unfold parseFunctionParameter at h
  rw [if_pos htok] at h
  rw [except_bind_ok] at h
  obtain ⟨st1, h1, h⟩ := h
  rw [except_bind_ok] at h
  obtain ⟨⟨name, st2⟩, h2, h⟩ := h
  dsimp only at h
  rw [except_bind_ok] at h
  obtain ⟨st3, h3, h⟩ := h
  rw [except_bind_ok] at h
  obtain ⟨⟨type, st4⟩, h4, h⟩ := h
  dsimp only at h
  simp at h
  obtain ⟨hp, -⟩ := h
  rw [← hp]
  exact ⟨rfl, rfl⟩

/-- Claim C7, witness: the rest-parameter theorem applied to the state
reached at the `...` of `"(...a: b)"`. -/
theorem parseFunctionParameter_rest_requirements_witness :
    (FunctionParameterTypeNode.mk (some "a") true (.entity "b")).rest = true ∧
    (FunctionParameterTypeNode.mk (some "a") true (.entity "b")).name?.isSome = true :=
  parseFunctionParameter_rest_requirements.1 40 ⟨.dotDotDotToken, "", "a: b)".toList⟩
    (.mk (some "a") true (.entity "b")) ⟨.closeParenToken, "", []⟩ (by rfl) (by rfl)

/-- Claim C10: `parse` never requires the input to be fully consumed: it
returns the result of one `parseType` derivation without checking for the
end-of-input token, so an input beginning with a complete type followed
by further tokens yields the leading type's tree with the trailing tokens
silently ignored. -/
theorem parse_ignoresTrailingTokens :
    parse "a b" = .ok (.entity "a") ∧
    parse "[a] x" = .ok (.array (.entity "a")) ∧
    ∀ (text : String) (k : SyntaxKind) (v : String) (r : List Char)
      (t : TypeNode) (st' : PState),
      scanChars text.toList = .ok (k, v, r) →
      parseType (parseFuel text) ⟨k, v, r⟩ = .ok (t, st') →
      parse text = .ok t := by
  refine ⟨by rfl, by rfl, ?_⟩
  intro text k v r t st' h1 h2
  unfold parse
  rw [except_bind_ok]
  refine ⟨(k, v, r), h1, ?_⟩
  dsimp only
  rw [except_bind_ok]
  exact ⟨(t, st'), h2, rfl⟩

/-- Claim C10, witness: the trailing-tokens theorem applied to the input
`"a b"`, whose leading type is the entity `a` and whose trailing
identifier token `b` is ignored. -/
theorem parse_ignoresTrailingTokens_witness : parse "a b" = .ok (.entity "a") :=
  parse_ignoresTrailingTokens.2.2 "a b" .identifier "a" (" b".toList)
    (.entity "a") ⟨.identifier, "b", []⟩ (by rfl) (by rfl)

/-- A nonempty character list that is an identifier lexeme: an identifier
start character followed by identifier part characters. -/
def isIdentLexemeChars : List Char → Bool
  | [] => false
  | c :: cs => isIdentStart c && cs.all isIdentPart

/-- A string that is an identifier lexeme as the scanner produces them. -/
def isIdentifierLexeme (s : String) : Bool :=
  isIdentLexemeChars s.toList

/-- Every identifier token the scanner produces carries an identifier
lexeme as its value (in particular a nonempty one). -/
theorem scanChars_identifier_lexeme : ∀ (l : List Char) {v : String} {r : List Char},
    scanChars l = .ok (.identifier, v, r) → isIdentifierLexeme v = true := by
  intro l
  induction l with
  | nil => intro v r h; simp [scanChars] at h
  | cons c rest ih =>
    intro v r h
    unfold scanChars at h
    by_cases hws : isWhitespaceChar c = true
    · rw [if_pos hws] at h; exact ih h
    rw [if_neg hws] at h
    by_cases hdot : c = '.'
    · rw [if_pos hdot] at h; split at h <;> simp at h
    rw [if_neg hdot] at h
    by_cases hq : c = '"'
    · rw [if_pos hq] at h; split at h <;> simp at h
    rw [if_neg hq] at h
    by_cases hd : c.isDigit = true
    · rw [if_pos hd] at h; simp at h
    rw [if_neg hd] at h
    by_cases hi : isIdentStart c = true
    · rw [if_pos hi] at h
      dsimp only at h
      by_cases hany : String.mk (c :: rest.takeWhile isIdentPart) = "any"
      · rw [if_pos hany] at h; simp at h
      rw [if_neg hany] at h
      by_cases hun : String.mk (c :: rest.takeWhile isIdentPart) = "union"
      · rw [if_pos hun] at h; simp at h
      rw [if_neg hun] at h
      simp at h
      obtain ⟨hv, -⟩ := h
      rw [← hv]
      have hall : (rest.takeWhile isIdentPart).all isIdentPart = true := by
        rw [List.all_eq_true]
        intro x hx
        exact List.mem_takeWhile_imp hx
      show (isIdentStart c && (rest.takeWhile isIdentPart).all isIdentPart) = true
      rw [hi, hall]
      rfl
    rw [if_neg hi] at h
    by_cases hc0 : c = '?'
    · rw [if_pos hc0] at h; simp at h
    rw [if_neg hc0] at h
    by_cases hc1 : c = ','
    · rw [if_pos hc1] at h; simp at h
    rw [if_neg hc1] at h
    by_cases hc2 : c = ':'
    · rw [if_pos hc2] at h; simp at h
    rw [if_neg hc2] at h
    by_cases hc3 : c = '('
    · rw [if_pos hc3] at h; simp at h
    rw [if_neg hc3] at h
    by_cases hc4 : c = ')'
    · rw [if_pos hc4] at h; simp at h
    rw [if_neg hc4] at h
    by_cases hc5 : c = '['
    · rw [if_pos hc5] at h; simp at h
    rw [if_neg hc5] at h
    by_cases hc6 : c = ']'
    · rw [if_pos hc6] at h; simp at h
    rw [if_neg hc6] at h
    by_cases hc7 : c = '{'
    · rw [if_pos hc7] at h; simp at h
    rw [if_neg hc7] at h
    by_cases hc8 : c = '}'
    · rw [if_pos hc8] at h; simp at h
    rw [if_neg hc8] at h
    by_cases hc9 : c = '<'
    · rw [if_pos hc9] at h; simp at h
    rw [if_neg hc9] at h
    by_cases hc10 : c = '>'
    · rw [if_pos hc10] at h; simp at h
    rw [if_neg hc10] at h
    by_cases hc11 : c = '→'
    · rw [if_pos hc11] at h; simp at h
    rw [if_neg hc11] at h
    by_cases hc12 : c = '*'
    · rw [if_pos hc12] at h; simp at h
    rw [if_neg hc12] at h
    simp at h

/-- Well-formedness of a parser state: when the current token is an
identifier, its value is an identifier lexeme.  Every state produced by
scanning satisfies this. -/
def WFTok (st : PState) : Prop :=
  st.tok = .identifier → isIdentifierLexeme st.tokenValue = true

/-- Advancing the token stream yields a well-formed state. -/
theorem nextToken_wf {st st' : PState} (h : nextToken st = .ok st') : WFTok st' := by
  unfold nextToken at h
  rw [except_bind_ok] at h
  obtain ⟨⟨k, v, r⟩, h1, h2⟩ := h
  dsimp only at h2
  simp at h2
  intro hid
  rw [← h2] at hid
  dsimp at hid
  rw [← h2]
  dsimp
  rw [hid] at h1
  exact scanChars_identifier_lexeme st.rest h1

/-- Inversion of a successful `parseIdentifier`: the state held an
identifier token, its value is returned, and the stream advanced. -/
theorem parseIdentifier_ok {st : PState} {name : String} {st' : PState}
    (h : parseIdentifier st = .ok (name, st')) :
    st.tok = .identifier ∧ name = st.tokenValue ∧ nextToken st = .ok st' := by
  unfold parseIdentifier at h
  split at h
  · rw [except_bind_ok] at h
    obtain ⟨a, h1, h2⟩ := h
    simp at h2
    exact ⟨by assumption, h2.1.symm, h2.2 ▸ h1⟩
  · simp at h

/-- The name built by `parseEntity`: the first identifier followed by the
further identifiers each preceded by a dot. -/
def dottedName (first : String) (parts : List String) : String :=
  parts.foldl (fun acc p => acc ++ "." ++ p) first

/-- Joining identifiers with dots never shortens the name. -/
theorem dottedName_length : ∀ (parts : List String) (a : String),
    a.length ≤ (dottedName a parts).length := by
  intro parts
  induction parts with
  | nil => intro a; simp [dottedName]
  | cons p ps ih =>
    intro a
    have h1 := ih (a ++ "." ++ p)
    have h2 : dottedName a (p :: ps) = dottedName (a ++ "." ++ p) ps := rfl
    rw [h2]
    refine le_trans ?_ h1
    simp [String.length_append]
    omega

/-- An identifier lexeme is nonempty. -/
theorem isIdentifierLexeme_pos {s : String} (h : isIdentifierLexeme s = true) :
    0 < s.length := by
  unfold isIdentifierLexeme at h
  cases hl : s.toList with
  | nil => rw [hl] at h; simp [isIdentLexemeChars] at h
  | cons c cs =>
    have hlen : s.length = s.toList.length := rfl
    rw [hlen, hl]
    simp

/-- A dotted name beginning with an identifier lexeme is nonempty. -/
theorem dottedName_ne_empty {first : String} (parts : List String)
    (h : isIdentifierLexeme first = true) : dottedName first parts ≠ "" := by
  intro he
  have h1 := dottedName_length parts first
  rw [he] at h1
  have h2 := isIdentifierLexeme_pos h
  simp at h1
  omega

/-- The dotted-name loop of `parseEntity` appends zero or more further
identifier lexemes, each preceded by a dot, to the name so far. -/
theorem parseEntityLoop_parts : ∀ (fuel : Nat) (name : String) (st : PState)
    (name' : String) (st' : PState),
    parseEntityLoop fuel name st = .ok (name', st') →
    ∃ parts : List String,
      (∀ p ∈ parts, isIdentifierLexeme p = true) ∧ name' = dottedName name parts := by
  intro fuel
  induction fuel with
  | zero => intro name st name' st' h; simp [parseEntityLoop] at h
  | succ fuel ih =>
    intro name st name' st' h
    unfold parseEntityLoop at h
    rw [except_bind_ok] at h
    obtain ⟨⟨dot, st1⟩, h1, h⟩ := h
    dsimp only at h
    cases dot with
    | false =>
      simp at h
      exact ⟨[], by simp, h.1.symm⟩
    | true =>
      rw [if_pos rfl] at h
      rw [except_bind_ok] at h
      obtain ⟨⟨id, st2⟩, h2, h⟩ := h
      dsimp only at h
      obtain ⟨parts, hall, hname⟩ := ih (name ++ "." ++ id) st2 name' st' h
      obtain ⟨hidtok, hidval, -⟩ := parseIdentifier_ok h2
      have hwf : WFTok st1 := nextToken_wf (skipOptional_ok_true h1).2
      have hid : isIdentifierLexeme id = true := by
        rw [hidval]; exact hwf hidtok
      refine ⟨id :: parts, ?_, ?_⟩
      · intro p hp
        rcases List.mem_cons.mp hp with hp | hp
        · rw [hp]; exact hid
        · exact hall p hp
      · rw [hname]; rfl

/-- Claim C6: `parse "a.b.c"` yields a single entity node named
`"a.b.c"`, not a nested structure; and in general every entity node
`parseEntity` produces (the only producer of entity nodes) has a name
that is one or more identifier lexemes joined by dots and is never the
empty string. -/
theorem parse_entity_dottedName :
    parse "a.b.c" = .ok (.entity "a.b.c") ∧
    ∀ (fuel : Nat) (st : PState) (n : TypeNode) (st' : PState),
      WFTok st →
      parseEntity fuel st = .ok (n, st') →
      ∃ (first : String) (parts : List String),
        isIdentifierLexeme first = true ∧
        (∀ p ∈ parts, isIdentifierLexeme p = true) ∧
        n = .entity (dottedName first parts) ∧
        dottedName first parts ≠ "" := by
  refine ⟨by rfl, ?_⟩
  intro fuel st n st' hwf h
  unfold parseEntity at h
  rw [except_bind_ok] at h
  obtain ⟨⟨first, st1⟩, h1, h⟩ := h
  dsimp only at h
  rw [except_bind_ok] at h
  obtain ⟨⟨name, st2⟩, h2, h⟩ := h
  dsimp only at h
  simp at h
  obtain ⟨hn, -⟩ := h
  obtain ⟨htok, hval, -⟩ := parseIdentifier_ok h1
  have hfirst : isIdentifierLexeme first = true := by rw [hval]; exact hwf htok
  obtain ⟨parts, hall, hname⟩ := parseEntityLoop_parts fuel first st1 name st2 h2
  exact ⟨first, parts, hfirst, hall, by rw [← hn, hname], dottedName_ne_empty parts hfirst⟩

/-- Claim C6, witness: the entity theorem applied at the state reached
after scanning the first identifier of `"a.b.c"`. -/
theorem parse_entity_dottedName_witness :
    ∃ (first : String) (parts : List String),
      isIdentifierLexeme first = true ∧
      (∀ p ∈ parts, isIdentifierLexeme p = true) ∧
      TypeNode.entity "a.b.c" = .entity (dottedName first parts) ∧
      dottedName first parts ≠ "" :=
  parse_entity_dottedName.2 60 ⟨.identifier, "a", ".b.c".toList⟩ (.entity "a.b.c")
    ⟨.endOfFileToken, "", []⟩ (by intro _; decide) (by rfl)
